import Mathlib

/-!
Verification development for the chrono-code backend: a shallow embedding of
the commit decomposition and retrieval-augmented query pipeline
(`app/services/gemini.py`, `app/services/commits.py`,
`app/services/supabase_service.py`, `app/services/chromadb_service.py`,
`app/controllers/analysis_controller.py`) together with theorems about the
claims of the natural-language specification.

External collaborators (the generative model, the embedding model, the GitHub
API, the relational store, the vector store) are modelled as oracle parameters:
pure functions describing the outcome of each outbound call.  `asyncio.gather`
is modelled by its documented semantics: the result list is in task-submission
order, regardless of completion order.
-/

namespace ChronoCode

/-! ## Data model (`app/models/models_commit.py`, `app/models/models_AI.py`) -/

/-- `CommitType` enumeration from `models_commit.py`. -/
inductive CommitType
  | FEATURE
  | BUG
  | REFACTOR
  | DOCS
  | TEST
  | STYLE
  | CHORE
  | MILESTONE
  | WARNING
  deriving DecidableEq, Repr

/-- `File`: one changed file of a commit (`models_commit.py`). -/
structure File where
  filename : String := ""
  additions : Nat := 0
  deletions : Nat := 0
  changes : Nat := 0
  status : String := ""
  raw_url : String := ""
  blob_url : String := ""
  patch : Option String := none
  deriving DecidableEq, Repr

/-- `Commit`: one source-control commit.  The fields are those of the pydantic
model in `models_commit.py` together with `repo_id`, which is the field the
constructor calls in `app/services/commits.py` actually populate. -/
structure Commit where
  created_at : String := ""
  repo_name : String := ""
  sha : String
  author : String := ""
  date : String := ""
  message : String := ""
  url : String := ""
  author_email : String := ""
  description : Option String := none
  author_url : String := ""
  repo_id : String := ""
  files : List File := []
  deriving DecidableEq, Repr

/-- `SubCommitAnalysis`: one logical unit of work extracted from a commit
(`models_commit.py`).  The `files` field is assigned dynamically by
`get_commit_analysis` in `gemini.py` (lines 94-98); it defaults to `[]`. -/
structure SubCommitAnalysis where
  title : String := ""
  idea : String := ""
  description : String := ""
  type : CommitType := CommitType.FEATURE
  commit_sha : String := ""
  epic : String := ""
  files : List File := []
  deriving DecidableEq, Repr

/-- `SubCommitAnalysisList`: the structured output schema of the commit
analysis model call (`models_commit.py`). -/
structure SubCommitAnalysisList where
  analysis : List SubCommitAnalysis
  deriving DecidableEq, Repr

/-- `Repository`: one source repository (`models_commit.py` historical version;
constructed in `commits.py` from the GitHub payload as id/name/url). -/
structure Repository where
  id : String
  name : String := ""
  url : String := ""
  deriving DecidableEq, Repr

/-! ## Settings (`app/config/settings.py`) -/

/-- Configuration values of `Settings` relevant to the core pipeline. -/
structure Settings where
  BATCH_SIZE : Nat := 50
  retries : Nat := 3
  deriving Repr

/-- The process-wide `settings` instance. -/
def settings : Settings := {}

/-! ## Commit Analyzer (`app/services/gemini.py`)

`get_commit_analysis` is an async function decorated with a tenacity `retry`
(`stop_after_attempt(settings.retries)`, retrying on any exception or on an
empty result, `reraise=True`).  Its mutable environment is the per-process
cache `_commit_analysis_cache` (a dict keyed by commit SHA) plus the outbound
model calls.  We model:

* the structured generation client chain `model_commit_with_fallback.ainvoke`
  (plus the explicit direct-fallback call made when it returns `None`) as an
  oracle `client : Nat → GenResult` giving the outcome of the n-th invocation;
* the per-subcommit file-attribution call `get_subcommit_file_analysis`
  (which carries its own bounded retry) by its final outcome
  `fileAttr : Commit → SubCommitAnalysis → Except Unit (List File)`;
* the state as an association list cache plus an invocation counter. -/

/-- Outcome of one invocation of the structured commit-analysis model:
it raises, returns `None`, or returns a structured value. -/
inductive GenResult
  | raises
  | retNone
  | retSome (result : SubCommitAnalysisList)
  deriving DecidableEq, Repr

/-- State threaded through `get_commit_analysis`: the per-process
`_commit_analysis_cache` (newest entry first; `List.lookup` finds the newest,
matching dict assignment) and the number of commit-analysis model invocations
performed so far. -/
structure AnalyzerState where
  cache : List (String × SubCommitAnalysisList) := []
  calls : Nat := 0
  deriving DecidableEq, Repr

/-- `is_empty_analysis` (`gemini.py` lines 19-21): true when the result is
`None` or its analysis list is empty.  (The typed embedding cannot represent
`result.analysis is None`, which pydantic rules out anyway.) -/
def is_empty_analysis (result : Option SubCommitAnalysisList) : Bool :=
  match result with
  | none => true
  | some r => r.analysis.isEmpty

/-- One pass through the try-block of `get_commit_analysis` (lines 60-74):
invoke the fallback chain; if it returns `None`, invoke the fallback model
directly (one more invocation).  Returns the outcome and the new invocation
count.  A second `None` flows into the empty-analysis check below and raises,
so it is an error here. -/
def invoke_with_fallback (client : Nat → GenResult) (calls : Nat) :
    Except Unit SubCommitAnalysisList × Nat :=
  match client calls with
  | GenResult.raises => (Except.error (), calls + 1)
  | GenResult.retNone =>
    match client (calls + 1) with
    | GenResult.raises => (Except.error (), calls + 2)
    | GenResult.retNone => (Except.error (), calls + 2)
    | GenResult.retSome r => (Except.ok r, calls + 2)
  | GenResult.retSome r => (Except.ok r, calls + 1)

/-- Lines 83-85 of `gemini.py`: stamp every returned sub-commit's
`commit_sha` with the source commit's SHA. -/
def stamp_subcommits (commit : Commit) (r : SubCommitAnalysisList) :
    List SubCommitAnalysis :=
  r.analysis.map (fun sc => { sc with commit_sha := commit.sha })

/-- Lines 87-100 of `gemini.py`: only when the commit has files, run one
file-attribution task per sub-commit (gathered with `return_exceptions=True`,
results assigned back by index); an exception leaves that sub-commit's file
list untouched. -/
def attach_files (fileAttr : Commit → SubCommitAnalysis → Except Unit (List File))
    (commit : Commit) (scs : List SubCommitAnalysis) : List SubCommitAnalysis :=
  if commit.files.isEmpty then scs
  else
    scs.map (fun sc =>
      match fileAttr commit sc with
      | Except.ok fs => { sc with files := fs }
      | Except.error _ => sc)

/-- The final analysis value produced by a successful fresh run of
`get_commit_analysis` on `commit` from a raw model result `r`. -/
def finalOf (fileAttr : Commit → SubCommitAnalysis → Except Unit (List File))
    (commit : Commit) (r : SubCommitAnalysisList) : SubCommitAnalysisList :=
  ⟨attach_files fileAttr commit (stamp_subcommits commit r)⟩

/-- One attempt of the body of `get_commit_analysis` (`gemini.py` lines
51-105): cache check, model invocation with fallback, empty-analysis check
(which raises to force a retry), SHA stamping, file attribution, and caching
of the final result. -/
def get_commit_analysis_body (client : Nat → GenResult)
    (fileAttr : Commit → SubCommitAnalysis → Except Unit (List File))
    (commit : Commit) (s : AnalyzerState) :
    Except Unit SubCommitAnalysisList × AnalyzerState :=
  match s.cache.lookup commit.sha with
  | some cached => (Except.ok cached, s)
  | none =>
    match invoke_with_fallback client s.calls with
    | (Except.error e, n) => (Except.error e, { s with calls := n })
    | (Except.ok r, n) =>
      if r.analysis.isEmpty then (Except.error (), { s with calls := n })
      else
        let final := finalOf fileAttr commit r
        (Except.ok final, { cache := (commit.sha, final) :: s.cache, calls := n })

/-- The tenacity retry combinator: `fuel` is the number of attempts still
allowed (`stop_after_attempt`).  An attempt is retried when it raises or when
its return value satisfies `isBad`
(`retry_if_exception_type(Exception) | retry_if_result(is_empty_analysis)`).
Once the attempts are exhausted the failure propagates (`reraise=True`; error
information is `Unit`, so the reraised exception and the `RetryError` of a
final bad result coincide). -/
def retryLoop {σ α : Type} (body : σ → Except Unit α × σ) (isBad : α → Bool) :
    Nat → σ → Except Unit α × σ
  | 0, s => (Except.error (), s)
  | n + 1, s =>
    match body s with
    | (Except.ok a, s1) =>
      if isBad a then retryLoop body isBad n s1 else (Except.ok a, s1)
    | (Except.error _, s1) => retryLoop body isBad n s1

/-- `get_commit_analysis` (`gemini.py` lines 45-105): the body wrapped in the
retry policy with `stop_after_attempt(settings.retries)`. -/
def get_commit_analysis (client : Nat → GenResult)
    (fileAttr : Commit → SubCommitAnalysis → Except Unit (List File))
    (commit : Commit) (s : AnalyzerState) :
    Except Unit SubCommitAnalysisList × AnalyzerState :=
  retryLoop (get_commit_analysis_body client fileAttr commit)
    (fun r => is_empty_analysis (some r)) settings.retries s

/-! ## Batch Orchestrator (`gemini.py` lines 152-184)

`analyze_commits_batch` launches one `get_commit_analysis` task per commit and
gathers them with `return_exceptions=True`.  The per-commit outcome (after the
analyzer's own retries) is modelled by an oracle
`outcome : Commit → Except Unit SubCommitAnalysisList`; `asyncio.gather`
guarantees the results list is in input order, which `List.map` captures. -/

/-- The result-processing loop of `analyze_commits_batch` (lines 170-182):
exceptions are logged and counted, non-empty results are appended in order,
empty results only produce a warning.  The second component is the number of
error-logged items; the Python function returns only the list. -/
def aggregate_results :
    List (Except Unit SubCommitAnalysisList) → List SubCommitAnalysis × Nat
  | [] => ([], 0)
  | r :: rest =>
    let acc := aggregate_results rest
    match r with
    | Except.error _ => (acc.1, acc.2 + 1)
    | Except.ok res =>
      if res.analysis.isEmpty then acc else (res.analysis ++ acc.1, acc.2)

/-- `analyze_commits_batch`: gather per-commit outcomes in input order, then
aggregate.  `.1` is the flattened analyses list, `.2` the count of failed
(error-logged) commits. -/
def analyze_commits_batch (outcome : Commit → Except Unit SubCommitAnalysisList)
    (commits : List Commit) : List SubCommitAnalysis × Nat :=
  aggregate_results (commits.map outcome)

/-- The analyses a single commit contributes to the aggregate: its analysis
list on success, nothing on failure. -/
def extract_analyses (outcome : Commit → Except Unit SubCommitAnalysisList)
    (c : Commit) : List SubCommitAnalysis :=
  match outcome c with
  | Except.ok r => r.analysis
  | Except.error _ => []

/-- Whether a commit's analysis outcome is a raised exception. -/
def is_failed_outcome (outcome : Commit → Except Unit SubCommitAnalysisList)
    (c : Commit) : Bool :=
  match outcome c with
  | Except.error _ => true
  | Except.ok _ => false

/-! ## Controller helpers (`app/controllers/analysis_controller.py`) -/

/-- `analyze_commit` (controller lines 36-62): the single-commit wrapper.
Commits without files are skipped before any model call; otherwise the
analyzer runs, exceptions and empty results yield `[]`. -/
def analyze_commit (client : Nat → GenResult)
    (fileAttr : Commit → SubCommitAnalysis → Except Unit (List File))
    (commit : Commit) (s : AnalyzerState) :
    List SubCommitAnalysis × AnalyzerState :=
  if commit.files.isEmpty then ([], s)
  else
    match get_commit_analysis client fileAttr commit s with
    | (Except.ok r, s1) => if r.analysis.isEmpty then ([], s1) else (r.analysis, s1)
    | (Except.error _, s1) => ([], s1)

/-- Fuel-indexed worker for `make_batches` (fuel bounds the number of slices;
`make_batches` supplies the list length, which suffices whenever the batch
size is at least 1). -/
def make_batches_go {α : Type} (bs : Nat) : Nat → List α → List (List α)
  | _, [] => []
  | 0, l => [l]
  | n + 1, l => l.take bs :: make_batches_go bs n (l.drop bs)

/-- The batching list comprehension of the controller
(`[lst[i:i+batch_size] for i in range(0, len(lst), batch_size)]`). -/
def make_batches {α : Type} (bs : Nat) (xs : List α) : List (List α) :=
  make_batches_go bs xs.length xs

/-- The hard-coded SHA allowlist of `update_analysis`
(controller line 250, commented `Filter commits for test purposes`). -/
def test_hashes : List String :=
  ["c7bbf95983af1ee41b6cec39dba64e3c8227f7bd",
   "2cab1a7de446f4fdf6efc4b8f465de89d0826cca"]

/-- The observable outcome of `update_analysis` that the claims are about:
the commits that survive the allowlist filter and proceed to analysis, and
the aggregated analyses that are then sent to the store. -/
structure UpdateAnalysisResult where
  list_commits : List Commit
  all_analyses : List SubCommitAnalysis
  analyses_count : Nat
  deriving DecidableEq, Repr

/-- `update_analysis` (controller lines 227-309), up to the storage call:
fetch new commits (an input here), filter them against `test_hashes`, split
into batches of `settings.BATCH_SIZE`, analyze every batch, and flatten the
batch results in order. -/
def update_analysis (newCommits : List Commit)
    (outcome : Commit → Except Unit SubCommitAnalysisList) : UpdateAnalysisResult :=
  let list_commits := newCommits.filter (fun c => test_hashes.contains c.sha)
  if list_commits.isEmpty then
    { list_commits := [], all_analyses := [], analyses_count := 0 }
  else
    let batches := make_batches settings.BATCH_SIZE list_commits
    let all_analyses :=
      (batches.map (fun b => (analyze_commits_batch outcome b).1)).flatten
    { list_commits := list_commits
      all_analyses := all_analyses
      analyses_count := all_analyses.length }

/-! ## Analysis Store and Repository Ingestion Gate
(`app/services/supabase_service.py`, `app/services/commits.py`)

The relational store is modelled by the keys its uniqueness constraints
guard: the set of registered repository ids and the set of stored commit
SHAs.  The store's constraint violation ("duplicate key value violates unique
constraint") is the signal `store_repo` and `store_commits` interpret. -/

/-- The relational store's uniqueness state: registered repository ids and
stored commit SHAs. -/
structure Store where
  repos : List String := []
  commits : List String := []
  deriving DecidableEq, Repr

/-- Result of `store_repo`: success, or the interpreted duplicate-key
violation (`supabase_service.py` lines 164-178). -/
inductive StoreRepoResult
  | success
  | duplicate_key
  deriving DecidableEq, Repr

/-- `store_repo`: insert the repository; a uniqueness violation is reported
as the `duplicate_key` code and leaves the store unchanged. -/
def store_repo (repo : Repository) (st : Store) : StoreRepoResult × Store :=
  if st.repos.contains repo.id then (StoreRepoResult.duplicate_key, st)
  else (StoreRepoResult.success, { st with repos := repo.id :: st.repos })

/-- `store_commits` (`supabase_service.py` lines 31-90): insert commits one
at a time in order; a commit whose SHA hits the uniqueness constraint is
recorded under `existing_commits` (by SHA) and skipped, the others under
`inserted_commits`.  Returns `((inserted_commits, existing_commits), store)`. -/
def store_commits : List Commit → Store → (List Commit × List String) × Store
  | [], st => (([], []), st)
  | c :: cs, st =>
    if st.commits.contains c.sha then
      (((store_commits cs st).1.1, c.sha :: (store_commits cs st).1.2),
       (store_commits cs st).2)
    else
      ((c :: (store_commits cs { st with commits := c.sha :: st.commits }).1.1,
        (store_commits cs { st with commits := c.sha :: st.commits }).1.2),
       (store_commits cs { st with commits := c.sha :: st.commits }).2)

/-- The distinguished failure of full ingestion
(`AlreadyAnalyzedRepositoryError` in `commits.py`). -/
inductive IngestError
  | alreadyAnalyzed (repo_url : String)
  deriving DecidableEq, Repr

/-- `get_repository_commits` (`commits.py` lines 16-188), full ingestion.
Oracles: `repoFetch` is the GitHub repository lookup (`none` models a non-200
response, which yields `[]`), `fetched` is the commit list the GitHub
pagination loop would produce.  The third result component records whether
the commit fetch was reached.  Control flow: register the repository first;
a duplicate-key registration raises `AlreadyAnalyzedRepositoryError` before
any commit is fetched.  Otherwise fetch, store with per-commit dedup, and
return `[]` when everything already existed, or the whole fetched list when
at least one commit was newly inserted (lines 166-181). -/
def get_repository_commits :
    Option Repository → List Commit → Store →
      Except IngestError (List Commit) × Store × Bool
  | none, _, st => (Except.ok [], st, false)
  | some repo, fetched, st =>
    match store_repo repo st with
    | (StoreRepoResult.duplicate_key, st1) =>
      (Except.error (IngestError.alreadyAnalyzed repo.url), st1, false)
    | (StoreRepoResult.success, st1) =>
      if fetched.isEmpty then (Except.ok [], st1, true)
      else
        let r := store_commits fetched st1
        if fetched.length = r.1.2.length then (Except.ok [], r.2, true)
        else (Except.ok fetched, r.2, true)

/-! ## Similarity Query Service (`app/services/chromadb_service.py`,
controller lines 415-480)

`ChatResponse` and `answer_user_query_with_subcommits` are imported by the
controller but their definitions are not under `src/`.  Modelled from the
spec: the Structured Generation Client synthesizes a final structured answer
from the query plus the hydrated neighbors, or fails; its outcome is the
`answer` oracle below. -/

/-- Modelled from the spec: `ChatResponse`, the structured answer produced by
answer synthesis (its definition is not under `src/`; only its role as the
synthesized answer is needed). -/
structure ChatResponse where
  content : String := ""
  deriving DecidableEq, Repr

/-- One neighbor record built by `get_k_neighbors`
(`chromadb_service.py` lines 101-120). -/
structure Neighbor where
  id : String
  subcommit_id : String
  distance : Option Rat := none
  similarity_score : Option Rat := none
  deriving DecidableEq, Repr

/-- The raw ChromaDB query payload consumed by `get_k_neighbors`: parallel
lists of document ids, the `subcommit_id` metadata entry per result, and
distances. -/
structure ChromaQueryResult where
  ids : List String := []
  metadatas : List (Option String) := []
  distances : List Rat := []
  deriving DecidableEq, Repr

/-- Build the i-th neighbor (`chromadb_service.py` lines 103-120):
`subcommit_id` falls back to the document id when absent from metadata and
`similarity_score` is `1 - distance`. -/
def build_neighbor (raw : ChromaQueryResult) (i : Nat) : Neighbor :=
  let doc_id := raw.ids.getD i ""
  let meta_sub := raw.metadatas.getD i none
  let distance := raw.distances[i]?
  { id := doc_id
    subcommit_id := meta_sub.getD doc_id
    distance := distance
    similarity_score := distance.map (fun d => 1 - d) }

/-- `get_k_neighbors` result processing (lines 100-122): with zero ids the
neighbor list stays empty. -/
def get_k_neighbors (raw : ChromaQueryResult) : List Neighbor :=
  if raw.ids.isEmpty then []
  else (List.range raw.ids.length).map (build_neighbor raw)

/-- The response body of `query_commits`.  `subcommits_ids` is populated only
in the synthesis-failure body (controller lines 466-470); the Python code
parses each id with `int(...)`, kept here as the raw id strings. -/
structure QueryCommitsResponse where
  status : String
  response : Option ChatResponse := none
  subcommits_ids : Option (List String) := none
  deriving DecidableEq, Repr

/-- `query_commits` (controller lines 415-480).  Oracles: `query_embedding`
is the embedding of the query text (`[]` models the embedding failure, which
`if not query_embedding` turns into a 500), `neighborsResult` the outcome of
`get_k_neighbors` (`error` models its exception dictionary, turned into a
500), `answer` the outcome of `answer_user_query_with_subcommits`.  The
second component counts answer-synthesis model invocations. -/
def query_commits (query_embedding : List Rat)
    (neighborsResult : Except String (List Neighbor))
    (answer : Except String ChatResponse) :
    Except String QueryCommitsResponse × Nat :=
  if query_embedding.isEmpty then
    (Except.error "Failed to generate embedding for query", 0)
  else
    match neighborsResult with
    | Except.error e => (Except.error e, 0)
    | Except.ok results =>
      let subcommit_ids := results.map (fun r => r.id)
      if results.isEmpty then
        (Except.ok { status := "success", response := none }, 0)
      else
        match answer with
        | Except.ok resp =>
          (Except.ok { status := "success", response := some resp }, 1)
        | Except.error _ =>
          (Except.ok { status := "error", response := none,
                       subcommits_ids := some subcommit_ids }, 1)

/-! ## General helper lemmas -/

/-- A list that is not `[]` has `isEmpty = false`. -/
theorem isEmpty_false_of_ne_nil {α : Type} {l : List α} (h : l ≠ []) :
    l.isEmpty = false := by
  cases l with
  | nil => exact absurd rfl h
  | cons a l => rfl

/-- A successful `List.lookup` exhibits a member of the association list. -/
theorem lookup_mem {β : Type} :
    ∀ (l : List (String × β)) (k : String) (v : β),
      l.lookup k = some v → (k, v) ∈ l := by
  intro l k v h
  induction l with
  | nil => simp [List.lookup] at h
  | cons p rest ih =>
    obtain ⟨pk, pv⟩ := p
    rw [List.lookup_cons] at h
    cases hk : (k == pk) with
    | true =>
      rw [hk] at h
      simp at h
      subst h
      have : k = pk := eq_of_beq hk
      subst this
      exact List.mem_cons_self _ _
    | false =>
      rw [hk] at h
      simp at h
      exact List.mem_cons_of_mem _ (ih h)

/-- Flattening a map of `flatMap`s is the `flatMap` of the flattening. -/
theorem flatten_map_flatMap {α β : Type} (g : α → List β) :
    ∀ l : List (List α), (l.map (fun b => b.flatMap g)).flatten = l.flatten.flatMap g := by
  intro l
  induction l with
  | nil => rfl
  | cons x rest ih =>
    simp only [List.map_cons, List.flatten_cons, List.flatMap_append, ih]

/-- `make_batches_go` flattens back to the original list as long as the fuel
covers the length and the batch size is positive. -/
theorem make_batches_go_flatten {α : Type} (bs : Nat) (hbs : 1 ≤ bs) :
    ∀ (n : Nat) (xs : List α), xs.length ≤ n →
      (make_batches_go bs n xs).flatten = xs := by
  intro n
  induction n with
  | zero =>
    intro xs hlen
    have : xs = [] := List.eq_nil_of_length_eq_zero (Nat.le_zero.mp hlen)
    subst this
    rfl
  | succ n ih =>
    intro xs hlen
    cases xs with
    | nil => rfl
    | cons y ys =>
      show ((y :: ys).take bs :: make_batches_go bs n ((y :: ys).drop bs)).flatten
          = y :: ys
      rw [List.flatten_cons, ih ((y :: ys).drop bs)
        (by
          rw [List.length_drop]
          omega),
        List.take_append_drop]

/-- `make_batches` partitions without loss or reordering. -/
theorem make_batches_flatten {α : Type} (bs : Nat) (hbs : 1 ≤ bs) (xs : List α) :
    (make_batches bs xs).flatten = xs :=
  make_batches_go_flatten bs hbs xs.length xs (Nat.le_refl _)

/-! ## Batch aggregation lemmas -/

/-- Specification of the result-processing loop: it flattens the successful
non-empty analyses in order and counts the exceptions. -/
theorem aggregate_results_spec :
    ∀ results : List (Except Unit SubCommitAnalysisList),
      aggregate_results results =
        (results.flatMap
          (fun r => match r with
            | Except.ok res => res.analysis
            | Except.error _ => []),
         results.countP
          (fun r => match r with
            | Except.error _ => true
            | Except.ok _ => false)) := by
  intro results
  induction results with
  | nil => rfl
  | cons r rest ih =>
    cases r with
    | error e =>
      simp only [aggregate_results, ih, List.flatMap_cons, List.countP_cons]
      simp
    | ok res =>
      simp only [aggregate_results, ih, List.flatMap_cons, List.countP_cons]
      by_cases h : res.analysis.isEmpty
      · rw [List.isEmpty_iff] at h
        simp [h]
      · rw [Bool.not_eq_true] at h
        simp [h]

/-- Specification of `analyze_commits_batch` in terms of the per-commit
outcomes. -/
theorem analyze_commits_batch_spec
    (outcome : Commit → Except Unit SubCommitAnalysisList) :
    ∀ commits : List Commit,
      analyze_commits_batch outcome commits =
        (commits.flatMap (extract_analyses outcome),
         commits.countP (fun c => is_failed_outcome outcome c)) := by
  intro commits
  induction commits with
  | nil => rfl
  | cons c cs ih =>
    show aggregate_results (outcome c :: cs.map outcome) = _
    rw [List.flatMap_cons, List.countP_cons]
    cases h : outcome c with
    | error e =>
      simp only [aggregate_results]
      rw [show aggregate_results (cs.map outcome) = analyze_commits_batch outcome cs from rfl,
        ih]
      simp [extract_analyses, is_failed_outcome, h]
    | ok res =>
      simp only [aggregate_results]
      rw [show aggregate_results (cs.map outcome) = analyze_commits_batch outcome cs from rfl,
        ih]
      by_cases hempty : res.analysis.isEmpty
      · have hnil : res.analysis = [] := List.isEmpty_iff.mp hempty
        simp [extract_analyses, is_failed_outcome, h, hempty, hnil]
      · rw [Bool.not_eq_true] at hempty
        simp [extract_analyses, is_failed_outcome, h, hempty]

/-- C10: For every input list of commits, the output of
`analyze_commits_batch` is deterministically ordered by input position: the
flattened result lists each commit's sub-commit analyses as a contiguous run
(`List.flatMap`), in the same order as the commits appear in the input list
(`asyncio.gather` preserves task order), independent of the completion order
of the concurrent analysis tasks. -/
theorem batch_output_input_order
    (outcome : Commit → Except Unit SubCommitAnalysisList)
    (commits : List Commit) :
    (analyze_commits_batch outcome commits).1 =
      commits.flatMap (extract_analyses outcome) := by
  rw [analyze_commits_batch_spec]

/-- C7: For a batch of 5 commits in which the analysis of exactly 2 commits
raises terminally, `analyze_commits_batch` still returns all sub-commit
analyses of the other 3 commits (a failing commit does not cancel its
siblings: the result is exactly the in-order flattening of the successful
analyses), and the count of failure-logged commits equals 2. -/
theorem batch_partial_failure
    (outcome : Commit → Except Unit SubCommitAnalysisList)
    (commits : List Commit)
    (_hlen : commits.length = 5)
    (hfail : commits.countP (fun c => is_failed_outcome outcome c) = 2) :
    (analyze_commits_batch outcome commits).2 = 2 ∧
    (analyze_commits_batch outcome commits).1 =
      commits.flatMap (extract_analyses outcome) := by
  constructor
  · rw [analyze_commits_batch_spec]
    exact hfail
  · rw [analyze_commits_batch_spec]

/-- C7 witness: a concrete batch of 5 commits whose 2nd and 4th analyses
raise; the other 3 commits' analyses all appear and the failure count is 2. -/
theorem batch_partial_failure_witness :
    (([{ sha := "1" }, { sha := "2" }, { sha := "3" }, { sha := "4" },
       { sha := "5" }] : List Commit).length = 5) ∧
    (([{ sha := "1" }, { sha := "2" }, { sha := "3" }, { sha := "4" },
       { sha := "5" }] : List Commit).countP
      (fun c => is_failed_outcome
        (fun c => if c.sha == "2" || c.sha == "4" then Except.error ()
                  else Except.ok ⟨[{ title := c.sha }]⟩) c) = 2) ∧
    ((analyze_commits_batch
        (fun c => if c.sha == "2" || c.sha == "4" then Except.error ()
                  else Except.ok ⟨[{ title := c.sha }]⟩)
        [{ sha := "1" }, { sha := "2" }, { sha := "3" }, { sha := "4" },
         { sha := "5" }]).2 = 2 ∧
     (analyze_commits_batch
        (fun c => if c.sha == "2" || c.sha == "4" then Except.error ()
                  else Except.ok ⟨[{ title := c.sha }]⟩)
        [{ sha := "1" }, { sha := "2" }, { sha := "3" }, { sha := "4" },
         { sha := "5" }]).1 =
      ([{ sha := "1" }, { sha := "2" }, { sha := "3" }, { sha := "4" },
        { sha := "5" }] : List Commit).flatMap
        (extract_analyses
          (fun c => if c.sha == "2" || c.sha == "4" then Except.error ()
                    else Except.ok ⟨[{ title := c.sha }]⟩))) :=
  ⟨by decide, by decide,
   batch_partial_failure _ _ (by decide) (by decide)⟩

/-- C9: `update_analysis` filters the fetched new commits against the
hard-coded two-SHA allowlist before any analysis: the commits that proceed
are exactly the filtered ones, the aggregated analyses come only from them,
and the allowlist is exactly the two listed SHAs. -/
theorem update_analysis_allowlist_filter
    (newCommits : List Commit)
    (outcome : Commit → Except Unit SubCommitAnalysisList) :
    (update_analysis newCommits outcome).list_commits =
      newCommits.filter (fun c => test_hashes.contains c.sha) ∧
    (update_analysis newCommits outcome).all_analyses =
      (newCommits.filter (fun c => test_hashes.contains c.sha)).flatMap
        (extract_analyses outcome) ∧
    test_hashes = ["c7bbf95983af1ee41b6cec39dba64e3c8227f7bd",
                   "2cab1a7de446f4fdf6efc4b8f465de89d0826cca"] := by
  have hmap : ∀ b : List Commit,
      (analyze_commits_batch outcome b).1 = b.flatMap (extract_analyses outcome) := by
    intro b
    rw [analyze_commits_batch_spec]
  refine ⟨?_, ?_, rfl⟩
  · unfold update_analysis
    cases hfil : newCommits.filter (fun c => test_hashes.contains c.sha) with
    | nil => rfl
    | cons x xs => rfl
  · unfold update_analysis
    cases hfil : newCommits.filter (fun c => test_hashes.contains c.sha) with
    | nil => rfl
    | cons x xs =>
      show ((make_batches settings.BATCH_SIZE (x :: xs)).map
          (fun b => (analyze_commits_batch outcome b).1)).flatten
        = (x :: xs).flatMap (extract_analyses outcome)
      calc ((make_batches settings.BATCH_SIZE (x :: xs)).map
              (fun b => (analyze_commits_batch outcome b).1)).flatten
          = ((make_batches settings.BATCH_SIZE (x :: xs)).map
              (fun b => b.flatMap (extract_analyses outcome))).flatten := by
              simp only [hmap]
        _ = (make_batches settings.BATCH_SIZE (x :: xs)).flatten.flatMap
              (extract_analyses outcome) := flatten_map_flatMap _ _
        _ = _ := by
              rw [make_batches_flatten settings.BATCH_SIZE (by decide)]

/-! ## Commit Analyzer lemmas -/

/-- Every stamped sub-commit carries the source commit's SHA. -/
theorem stamp_subcommits_sha (commit : Commit) (r : SubCommitAnalysisList) :
    ∀ sc ∈ stamp_subcommits commit r, sc.commit_sha = commit.sha := by
  intro sc hsc
  unfold stamp_subcommits at hsc
  obtain ⟨x, hx, rfl⟩ := List.mem_map.mp hsc
  rfl

/-- File attribution never touches the `commit_sha` field. -/
theorem attach_files_sha
    (fileAttr : Commit → SubCommitAnalysis → Except Unit (List File))
    (commit : Commit) (scs : List SubCommitAnalysis) :
    ∀ sc ∈ attach_files fileAttr commit scs,
      ∃ x ∈ scs, sc.commit_sha = x.commit_sha := by
  intro sc hsc
  unfold attach_files at hsc
  split at hsc
  · exact ⟨sc, hsc, rfl⟩
  · obtain ⟨x, hx, rfl⟩ := List.mem_map.mp hsc
    refine ⟨x, hx, ?_⟩
    cases fileAttr commit x <;> rfl

/-- Every sub-commit of a fresh successful analysis is stamped with the
source commit's SHA. -/
theorem finalOf_sha (fileAttr : Commit → SubCommitAnalysis → Except Unit (List File))
    (commit : Commit) (r : SubCommitAnalysisList) :
    ∀ sc ∈ (finalOf fileAttr commit r).analysis, sc.commit_sha = commit.sha := by
  intro sc hsc
  obtain ⟨x, hx, hxsha⟩ := attach_files_sha fileAttr commit _ sc hsc
  rw [hxsha, stamp_subcommits_sha commit r x hx]

/-- Stamping and file attribution preserve the number of sub-commits. -/
theorem finalOf_length (fileAttr : Commit → SubCommitAnalysis → Except Unit (List File))
    (commit : Commit) (r : SubCommitAnalysisList) :
    (finalOf fileAttr commit r).analysis.length = r.analysis.length := by
  show (attach_files fileAttr commit (stamp_subcommits commit r)).length = _
  unfold attach_files stamp_subcommits
  split
  · simp
  · simp

/-- A non-empty raw model result yields a non-empty final analysis. -/
theorem finalOf_not_empty
    (fileAttr : Commit → SubCommitAnalysis → Except Unit (List File))
    (commit : Commit) (r : SubCommitAnalysisList) (h : r.analysis ≠ []) :
    (finalOf fileAttr commit r).analysis.isEmpty = false := by
  apply isEmpty_false_of_ne_nil
  intro hnil
  apply h
  have hlen := congrArg List.length hnil
  rw [finalOf_length] at hlen
  exact List.eq_nil_of_length_eq_zero hlen

/-- Invariant of the analysis cache: every cached analysis is stamped with
the SHA it is stored under. -/
def CacheStamped (cache : List (String × SubCommitAnalysisList)) : Prop :=
  ∀ sha r, (sha, r) ∈ cache → ∀ sc ∈ r.analysis, sc.commit_sha = sha

/-- A successful body attempt produces an analysis stamped with the commit's
SHA, whether it comes from the cache or fresh from the model. -/
theorem body_ok_stamped (client : Nat → GenResult)
    (fileAttr : Commit → SubCommitAnalysis → Except Unit (List File))
    (commit : Commit) (s : AnalyzerState) (r : SubCommitAnalysisList)
    (s1 : AnalyzerState) (hInv : CacheStamped s.cache)
    (h : get_commit_analysis_body client fileAttr commit s = (Except.ok r, s1)) :
    ∀ sc ∈ r.analysis, sc.commit_sha = commit.sha := by
  unfold get_commit_analysis_body at h
  split at h
  · rename_i cached heq
    simp only [Prod.mk.injEq, Except.ok.injEq] at h
    obtain ⟨rfl, -⟩ := h
    exact hInv commit.sha cached (lookup_mem _ _ _ heq)
  · rename_i heq
    split at h
    · simp at h
    · split at h
      · simp at h
      · simp only [Prod.mk.injEq, Except.ok.injEq] at h
        obtain ⟨rfl, -⟩ := h
        exact finalOf_sha fileAttr commit _

/-- Every body attempt preserves the cache invariant. -/
theorem body_preserves_stamped (client : Nat → GenResult)
    (fileAttr : Commit → SubCommitAnalysis → Except Unit (List File))
    (commit : Commit) (s : AnalyzerState)
    (res : Except Unit SubCommitAnalysisList) (s1 : AnalyzerState)
    (hInv : CacheStamped s.cache)
    (h : get_commit_analysis_body client fileAttr commit s = (res, s1)) :
    CacheStamped s1.cache := by
  unfold get_commit_analysis_body at h
  split at h
  · simp only [Prod.mk.injEq] at h
    obtain ⟨-, rfl⟩ := h
    exact hInv
  · split at h
    · simp only [Prod.mk.injEq] at h
      obtain ⟨-, rfl⟩ := h
      exact hInv
    · split at h
      · simp only [Prod.mk.injEq] at h
        obtain ⟨-, rfl⟩ := h
        exact hInv
      · simp only [Prod.mk.injEq] at h
        obtain ⟨-, rfl⟩ := h
        intro sha r hmem sc hsc
        rcases List.mem_cons.mp hmem with hhead | htail
        · obtain ⟨rfl, rfl⟩ := Prod.mk.injEq .. |>.mp hhead
          exact finalOf_sha fileAttr commit _ sc hsc
        · exact hInv sha r htail sc hsc

/-- Elimination principle for the retry loop: any property guaranteed by a
successful body attempt under an invariant preserved by every attempt holds
of a successful retried call. -/
theorem retryLoop_ok_elim {σ α : Type} (body : σ → Except Unit α × σ)
    (isBad : α → Bool) (Inv : σ → Prop) (P : α → Prop)
    (hbody : ∀ s r s1, Inv s → body s = (Except.ok r, s1) → P r)
    (hpres : ∀ s res s1, Inv s → body s = (res, s1) → Inv s1) :
    ∀ (fuel : Nat) (s : σ) (r : α) (s1 : σ), Inv s →
      retryLoop body isBad fuel s = (Except.ok r, s1) → P r := by
  intro fuel
  induction fuel with
  | zero =>
    intro s r s1 hInv hrun
    simp [retryLoop] at hrun
  | succ n ih =>
    intro s r s1 hInv hrun
    rw [retryLoop] at hrun
    split at hrun
    · rename_i a s2 heq
      split at hrun
      · exact ih s2 r s1 (hpres s _ s2 hInv heq) hrun
      · simp only [Prod.mk.injEq, Except.ok.injEq] at hrun
        obtain ⟨rfl, -⟩ := hrun
        exact hbody s a s2 hInv heq
    · rename_i s2 heq
      exact ih s2 r s1 (hpres s _ s2 hInv heq) hrun

/-- If the body always fails under an invariant, the retry loop performs
exactly `fuel` attempts and then propagates the failure. -/
theorem retryLoop_const_error {σ α : Type} (body : σ → Except Unit α × σ)
    (isBad : α → Bool) (Inv : σ → Prop) (step : σ → σ)
    (hbody : ∀ s, Inv s → body s = (Except.error (), step s))
    (hstep : ∀ s, Inv s → Inv (step s)) :
    ∀ (fuel : Nat) (s : σ), Inv s →
      retryLoop body isBad fuel s = (Except.error (), step^[fuel] s) := by
  intro fuel
  induction fuel with
  | zero => intro s hInv; rfl
  | succ n ih =>
    intro s hInv
    rw [retryLoop, hbody s hInv]
    show retryLoop body isBad n (step s) = (Except.error (), step^[n + 1] s)
    rw [Function.iterate_succ_apply]
    exact ih (step s) (hstep s hInv)

/-- A first successful, non-empty attempt short-circuits the retry loop. -/
theorem retryLoop_first_ok {σ α : Type} (body : σ → Except Unit α × σ)
    (isBad : α → Bool) (fuel : Nat) (hfuel : 1 ≤ fuel) (s s1 : σ) (a : α)
    (hbody : body s = (Except.ok a, s1)) (hgood : isBad a = false) :
    retryLoop body isBad fuel s = (Except.ok a, s1) := by
  cases fuel with
  | zero => exact absurd hfuel (by omega)
  | succ n =>
    rw [retryLoop, hbody]
    show (if isBad a = true then retryLoop body isBad n s1 else (Except.ok a, s1)) =
      (Except.ok a, s1)
    rw [hgood]
    simp

/-- A fresh (cache-missing) call whose first model invocation returns a
non-empty analysis succeeds in one invocation, caches the stamped result and
returns it. -/
theorem gca_fresh (client : Nat → GenResult)
    (fileAttr : Commit → SubCommitAnalysis → Except Unit (List File))
    (commit : Commit) (cache : List (String × SubCommitAnalysisList))
    (calls : Nat) (r0 : SubCommitAnalysisList)
    (hmiss : cache.lookup commit.sha = none)
    (hc : client calls = GenResult.retSome r0)
    (hne : r0.analysis ≠ []) :
    get_commit_analysis client fileAttr commit { cache := cache, calls := calls } =
      (Except.ok (finalOf fileAttr commit r0),
       { cache := (commit.sha, finalOf fileAttr commit r0) :: cache,
         calls := calls + 1 }) := by
  have hbody : get_commit_analysis_body client fileAttr commit
      { cache := cache, calls := calls } =
      (Except.ok (finalOf fileAttr commit r0),
       { cache := (commit.sha, finalOf fileAttr commit r0) :: cache,
         calls := calls + 1 }) := by
    unfold get_commit_analysis_body
    simp [hmiss, invoke_with_fallback, hc, isEmpty_false_of_ne_nil hne]
  exact retryLoop_first_ok _ _ settings.retries (by decide) _ _ _ hbody
    (by simpa [is_empty_analysis] using finalOf_not_empty fileAttr commit r0 hne)

/-- A cache hit on a non-empty cached analysis returns it unchanged, with no
model invocation. -/
theorem gca_cached (client : Nat → GenResult)
    (fileAttr : Commit → SubCommitAnalysis → Except Unit (List File))
    (commit : Commit) (cache : List (String × SubCommitAnalysisList))
    (calls : Nat) (r : SubCommitAnalysisList)
    (hhit : cache.lookup commit.sha = some r)
    (hne : r.analysis.isEmpty = false) :
    get_commit_analysis client fileAttr commit { cache := cache, calls := calls } =
      (Except.ok r, { cache := cache, calls := calls }) := by
  have hbody : get_commit_analysis_body client fileAttr commit
      { cache := cache, calls := calls } =
      (Except.ok r, { cache := cache, calls := calls }) := by
    unfold get_commit_analysis_body
    simp [hhit]
  exact retryLoop_first_ok _ _ settings.retries (by decide) _ _ _ hbody
    (by simpa [is_empty_analysis] using hne)

/-! ## Claim theorems for the Commit Analyzer -/

/-- C2 counterexample: a concrete fileless commit.  The claimed guard does
not exist on the batch path: `get_commit_analysis` (the function
`analyze_commits_batch` calls per commit) invokes the generation client for
this fileless commit (one invocation, not zero), and the batch result for it
is non-empty rather than the claimed `[]`. -/
theorem fileless_batch_path_invokes_model_cex :
    (({ sha := "s0" } : Commit).files = []) ∧
    ((get_commit_analysis (fun _ => GenResult.retSome ⟨[{ title := "t" }]⟩)
        (fun _ _ => Except.error ()) ({ sha := "s0" } : Commit) {}).2.calls = 1) ∧
    ((analyze_commits_batch
        (fun c => (get_commit_analysis (fun _ => GenResult.retSome ⟨[{ title := "t" }]⟩)
          (fun _ _ => Except.error ()) c {}).1)
        [{ sha := "s0" }]).1 ≠ []) :=
  ⟨rfl, by decide, by decide⟩

/-- C2 (amended): the fileless-commit guard exists only in the single-commit
wrapper `analyze_commit` (controller lines 48-52): for every commit whose
files list is empty it returns `[]` and leaves the analyzer state — cache and
model-invocation count — untouched, so the generative model is never invoked
on that path.  The batch path has no such guard (see the counterexample). -/
theorem fileless_guard_only_in_wrapper (client : Nat → GenResult)
    (fileAttr : Commit → SubCommitAnalysis → Except Unit (List File))
    (commit : Commit) (s : AnalyzerState) (h : commit.files = []) :
    analyze_commit client fileAttr commit s = ([], s) := by
  unfold analyze_commit
  rw [h]
  rfl

/-- C2 witness: a concrete fileless commit through `analyze_commit`. -/
theorem fileless_guard_only_in_wrapper_witness :
    (({ sha := "w2" } : Commit).files = []) ∧
    analyze_commit (fun _ => GenResult.raises) (fun _ _ => Except.error ())
      ({ sha := "w2" } : Commit) {} = ([], {}) :=
  ⟨rfl, fileless_guard_only_in_wrapper _ _ _ _ rfl⟩

/-- C3: for every commit and every sub-commit of a successful
`get_commit_analysis` (starting from a cache whose entries are themselves
stamped with their keys, e.g. the empty initial cache), the sub-commit's
`commit_sha` equals the input commit's SHA, regardless of what the model put
in that field. -/
theorem subcommit_sha_stamped (client : Nat → GenResult)
    (fileAttr : Commit → SubCommitAnalysis → Except Unit (List File))
    (commit : Commit) (s : AnalyzerState) (r : SubCommitAnalysisList)
    (s1 : AnalyzerState) (hInv : CacheStamped s.cache)
    (h : get_commit_analysis client fileAttr commit s = (Except.ok r, s1)) :
    r.analysis.all (fun sc => sc.commit_sha == commit.sha) = true := by
  have hP := retryLoop_ok_elim (get_commit_analysis_body client fileAttr commit)
    (fun r => is_empty_analysis (some r))
    (fun st => CacheStamped st.cache)
    (fun r => ∀ sc ∈ r.analysis, sc.commit_sha = commit.sha)
    (fun st r st1 hi hb => body_ok_stamped client fileAttr commit st r st1 hi hb)
    (fun st res st1 hi hb => body_preserves_stamped client fileAttr commit st res st1 hi hb)
    settings.retries s r s1 hInv h
  rw [List.all_eq_true]
  intro sc hsc
  exact beq_iff_eq.mpr (hP sc hsc)

/-- C3 witness: a model that fills `commit_sha` with junk; the analyzer
overwrites it with the commit's SHA. -/
theorem subcommit_sha_stamped_witness :
    CacheStamped [] ∧
    ((⟨[{ title := "u", commit_sha := "s1" }]⟩ : SubCommitAnalysisList).analysis.all
      (fun sc => sc.commit_sha == "s1") = true) :=
  ⟨fun _ _ hmem => absurd hmem (List.not_mem_nil _),
   subcommit_sha_stamped
     (fun _ => GenResult.retSome ⟨[{ title := "u", commit_sha := "zzz" }]⟩)
     (fun _ _ => Except.error ()) ({ sha := "s1" } : Commit) {}
     ⟨[{ title := "u", commit_sha := "s1" }]⟩
     { cache := [("s1", ⟨[{ title := "u", commit_sha := "s1" }]⟩)], calls := 1 }
     (fun _ _ hmem => absurd hmem (List.not_mem_nil _))
     rfl⟩

/-- Iterating the invocation-counter increment `k` times adds `k`. -/
theorem iterate_calls_step : ∀ (k : Nat) (st : AnalyzerState),
    (fun st : AnalyzerState => { st with calls := st.calls + 1 })^[k] st =
      { st with calls := st.calls + k } := by
  intro k
  induction k with
  | zero => intro st; rfl
  | succ n ih =>
    intro st
    rw [Function.iterate_succ_apply, ih]
    show ({ cache := st.cache, calls := st.calls + 1 + n } : AnalyzerState) = _
    have hadd : st.calls + 1 + n = st.calls + (n + 1) := by omega
    rw [hadd]

/-- C5: if the generation client raises on every invocation, then for any
commit not present in the analysis cache, `get_commit_analysis` fails and
invokes the client exactly `settings.retries` times — one invocation per
attempt, neither fewer nor more — leaving the cache unchanged. -/
theorem retry_ceiling_exact (client : Nat → GenResult)
    (fileAttr : Commit → SubCommitAnalysis → Except Unit (List File))
    (commit : Commit) (cache : List (String × SubCommitAnalysisList)) (calls : Nat)
    (hclient : ∀ n, client n = GenResult.raises)
    (hmiss : cache.lookup commit.sha = none) :
    get_commit_analysis client fileAttr commit { cache := cache, calls := calls } =
      (Except.error (), { cache := cache, calls := calls + settings.retries }) := by
  have hrun := retryLoop_const_error (get_commit_analysis_body client fileAttr commit)
    (fun r => is_empty_analysis (some r))
    (fun st => st.cache = cache)
    (fun st => { st with calls := st.calls + 1 })
    (fun st hst => by
      have hm2 : st.cache.lookup commit.sha = none := by rw [hst]; exact hmiss
      unfold get_commit_analysis_body
      rw [hm2]
      simp [invoke_with_fallback, hclient])
    (fun st hst => hst)
    settings.retries { cache := cache, calls := calls } rfl
  exact hrun.trans (by rw [iterate_calls_step])

/-- C5 witness: concrete always-raising client, empty cache. -/
theorem retry_ceiling_exact_witness :
    get_commit_analysis (fun _ => GenResult.raises) (fun _ _ => Except.error ())
      ({ sha := "w5" } : Commit) { cache := [], calls := 0 } =
      (Except.error (), { cache := [], calls := 3 }) :=
  retry_ceiling_exact _ _ _ _ _ (fun _ => rfl) rfl

/-- C6: if the first client invocation returns a non-empty analysis, then
starting from an empty cache, the first `get_commit_analysis` call invokes
the client exactly once and a second call with the same SHA returns the
identical cached result and state — so the client is invoked at most once in
total across the two calls. -/
theorem analysis_cached_once (client : Nat → GenResult)
    (fileAttr : Commit → SubCommitAnalysis → Except Unit (List File))
    (commit : Commit) (r0 : SubCommitAnalysisList)
    (hc : client 0 = GenResult.retSome r0)
    (hne : r0.analysis ≠ []) :
    ((get_commit_analysis client fileAttr commit {}).2.calls = 1) ∧
    (get_commit_analysis client fileAttr commit
        (get_commit_analysis client fileAttr commit {}).2 =
      get_commit_analysis client fileAttr commit {}) := by
  have h1 := gca_fresh client fileAttr commit [] 0 r0 rfl hc hne
  have hinit : ({} : AnalyzerState) = { cache := [], calls := 0 } := rfl
  constructor
  · rw [hinit, h1]
  · rw [hinit, h1]
    exact gca_cached client fileAttr commit _ _ _
      (by simp [List.lookup]) (finalOf_not_empty fileAttr commit r0 hne)

/-- C6 witness: a concrete client that succeeds immediately; the whole
two-call scenario evaluates as the theorem states. -/
theorem analysis_cached_once_witness :
    ((get_commit_analysis (fun _ => GenResult.retSome ⟨[{ title := "v" }]⟩)
        (fun _ _ => Except.error ()) ({ sha := "w6" } : Commit) {}).2.calls = 1) ∧
    (get_commit_analysis (fun _ => GenResult.retSome ⟨[{ title := "v" }]⟩)
        (fun _ _ => Except.error ()) ({ sha := "w6" } : Commit)
        (get_commit_analysis (fun _ => GenResult.retSome ⟨[{ title := "v" }]⟩)
          (fun _ _ => Except.error ()) ({ sha := "w6" } : Commit) {}).2 =
      get_commit_analysis (fun _ => GenResult.retSome ⟨[{ title := "v" }]⟩)
        (fun _ _ => Except.error ()) ({ sha := "w6" } : Commit) {}) :=
  analysis_cached_once _ _ _ _ rfl (by decide)

/-! ## Claim theorems for ingestion and the similarity query -/

/-- Each commit handed to `store_commits` lands in exactly one of the two
result buckets: inserted or existing. -/
theorem store_commits_length : ∀ (cs : List Commit) (st : Store),
    (store_commits cs st).1.1.length + (store_commits cs st).1.2.length = cs.length := by
  intro cs
  induction cs with
  | nil => intro st; rfl
  | cons c rest ih =>
    intro st
    unfold store_commits
    split
    · have hr := ih st
      simp only [List.length_cons]
      omega
    · have hr := ih { st with commits := c.sha :: st.commits }
      simp only [List.length_cons]
      omega

/-- C1: for every repository already registered in the Analysis Store, full
ingestion fails with the distinguished `AlreadyAnalyzedRepositoryError`
(raised when registration reports the uniqueness conflict), the commit fetch
is never reached (third component `false`), and the store — hence the stored
commit count — is unchanged. -/
theorem second_ingestion_already_analyzed (repo : Repository)
    (fetched : List Commit) (st : Store)
    (hdup : st.repos.contains repo.id = true) :
    get_repository_commits (some repo) fetched st =
      (Except.error (IngestError.alreadyAnalyzed repo.url), st, false) := by
  have hreg : store_repo repo st = (StoreRepoResult.duplicate_key, st) := by
    unfold store_repo
    rw [hdup]
    rfl
  simp only [get_repository_commits]
  rw [hreg]

/-- C1 witness: a repository whose id is already registered. -/
theorem second_ingestion_already_analyzed_witness :
    (({ repos := ["77"], commits := ["x"] } : Store).repos.contains
      ({ id := "77", url := "u77" } : Repository).id = true) ∧
    get_repository_commits (some { id := "77", url := "u77" })
        [{ sha := "y" }] { repos := ["77"], commits := ["x"] } =
      (Except.error (IngestError.alreadyAnalyzed "u77"),
       { repos := ["77"], commits := ["x"] }, false) :=
  ⟨rfl, second_ingestion_already_analyzed _ _ _ rfl⟩

/-- C4 counterexample: a store already holding SHA `"aaa"` and a fetch of two
commits, one of them that very SHA.  Full ingestion returns the whole fetched
list — including the commit whose SHA already existed — contradicting the
claim that already-existing commits are not included in the returned list. -/
theorem full_ingestion_returns_existing_cex :
    ((get_repository_commits (some { id := "r1" })
        [{ sha := "aaa" }, { sha := "bbb" }]
        { repos := [], commits := ["aaa"] }).1 =
      Except.ok [{ sha := "aaa" }, { sha := "bbb" }]) ∧
    (({ repos := [], commits := ["aaa"] } : Store).commits.contains
      ({ sha := "aaa" } : Commit).sha = true) :=
  ⟨rfl, rfl⟩

/-- C4 (amended): on a first-time registration, full ingestion returns an
empty list — never a failure — when the repository has no commits or when no
fetched commit was newly stored (all already existed); otherwise, when at
least one fetched commit is newly inserted, it returns the entire fetched
list, including the commits whose SHA already existed. -/
theorem full_ingestion_return_value (repo : Repository) (fetched : List Commit)
    (st : Store) (hnew : st.repos.contains repo.id = false) :
    (get_repository_commits (some repo) fetched st).1 =
      (if ((store_commits fetched { st with repos := repo.id :: st.repos }).1.1).isEmpty
       then Except.ok [] else Except.ok fetched) := by
  have hreg : store_repo repo st =
      (StoreRepoResult.success, { st with repos := repo.id :: st.repos }) := by
    unfold store_repo
    rw [hnew]
    rfl
  simp only [get_repository_commits]
  rw [hreg]
  cases fetched with
  | nil => rfl
  | cons c cs =>
    show (if (c :: cs).length =
            (store_commits (c :: cs) { st with repos := repo.id :: st.repos }).1.2.length
          then ((Except.ok [] : Except IngestError (List Commit)),
                (store_commits (c :: cs) { st with repos := repo.id :: st.repos }).2, true)
          else (Except.ok (c :: cs),
                (store_commits (c :: cs) { st with repos := repo.id :: st.repos }).2,
                true)).1 = _
    by_cases hlen : (c :: cs).length =
        (store_commits (c :: cs) { st with repos := repo.id :: st.repos }).1.2.length
    · rw [if_pos hlen]
      have hp := store_commits_length (c :: cs) { st with repos := repo.id :: st.repos }
      have h0 : (store_commits (c :: cs) { st with repos := repo.id :: st.repos }).1.1.length
          = 0 := by omega
      have hins : (store_commits (c :: cs) { st with repos := repo.id :: st.repos }).1.1
          = [] := List.eq_nil_of_length_eq_zero h0
      rw [hins]
      rfl
    · rw [if_neg hlen]
      have hins : ((store_commits (c :: cs)
          { st with repos := repo.id :: st.repos }).1.1).isEmpty = false := by
        apply isEmpty_false_of_ne_nil
        intro hnil
        have hp := store_commits_length (c :: cs) { st with repos := repo.id :: st.repos }
        rw [hnil] at hp
        apply hlen
        simp only [List.length_nil, Nat.zero_add] at hp
        omega
      rw [hins]
      rfl

/-- C4 amended-claim witness: the same concrete input as the counterexample,
run against a fresh repository registration. -/
theorem full_ingestion_return_value_witness :
    (({ repos := [], commits := ["aaa"] } : Store).repos.contains
      ({ id := "r2" } : Repository).id = false) ∧
    ((get_repository_commits (some { id := "r2" })
        [{ sha := "aaa" }, { sha := "bbb" }]
        { repos := [], commits := ["aaa"] }).1 =
      (if ((store_commits [{ sha := "aaa" }, { sha := "bbb" }]
            { repos := ["r2"], commits := ["aaa"] }).1.1).isEmpty
       then Except.ok [] else Except.ok [{ sha := "aaa" }, { sha := "bbb" }])) :=
  ⟨rfl, full_ingestion_return_value _ _ _ rfl⟩

/-- C8: if the nearest-neighbor retrieval yields zero neighbors (zero raw
ids from the vector store), `query_commits` returns a success body with no
answer content (`response = none`) and the generative model is never invoked
for answer synthesis (zero synthesis invocations). -/
theorem query_no_neighbors_no_model (query_embedding : List Rat)
    (answer : Except String ChatResponse) (raw : ChromaQueryResult)
    (hemb : query_embedding.isEmpty = false)
    (hids : raw.ids = []) :
    query_commits query_embedding (Except.ok (get_k_neighbors raw)) answer =
      (Except.ok { status := "success", response := none, subcommits_ids := none },
       0) := by
  have hkn : get_k_neighbors raw = [] := by
    unfold get_k_neighbors
    rw [hids]
    rfl
  unfold query_commits
  rw [hemb, hkn]
  rfl

/-- C8 witness: a non-empty query embedding, an empty raw neighbor payload,
and an answer oracle that would fail if it were ever consulted. -/
theorem query_no_neighbors_no_model_witness :
    (([1] : List Rat).isEmpty = false) ∧
    (({} : ChromaQueryResult).ids = []) ∧
    query_commits [1] (Except.ok (get_k_neighbors {})) (Except.error "boom") =
      (Except.ok { status := "success", response := none, subcommits_ids := none },
       0) :=
  ⟨rfl, rfl, query_no_neighbors_no_model _ _ _ rfl rfl⟩

end ChronoCode
